import Mathlib

/-!
Verification development for the CodeChecker command-line client module
`libcodechecker/libhandlers/cmd.py` and its Filter & Run-Diff Query Model.

The argument-registration module in the repository declares the data the
query model consumes (default filter values, the retention-time parser
`valid_time`, the PostgreSQL option validation of `product add`); the
pattern matcher, filter criteria evaluation, run selection and diff
classification are implemented by the `cmd_line_client` collaborator,
which is not part of the examined sources, so those components are
modelled from the specification's words and marked as such.

Everything is executable: strings are handled as `List Char` where
character-level recursion is needed.
-/

namespace CodeChecker

/-! ## PatternMatcher

Modelled from the spec: `*` in the pattern matches zero or more arbitrary
characters; all other characters match literally; matching is anchored
(the whole candidate string must match, not a substring) and
case-sensitive. The implementation (`*`-glob compilation) lives in the
`cmd_line_client` collaborator, outside the examined sources. -/

/-- Anchored glob matching over character lists: a `'*'` in the pattern
consumes zero or more candidate characters (any suffix of the candidate
may be matched against the rest of the pattern); every other pattern
character must equal the next candidate character. -/
def globMatch : List Char → List Char → Bool
  | [], s => s.isEmpty
  | '*' :: ps, s => (s :: s.tails.tail).any (fun t => globMatch ps t)
  | _ :: _, [] => false
  | p :: ps, c :: cs => p == c && globMatch ps cs

/-- `Matcher.matches` on strings: compile the pattern and test the whole
candidate. -/
def matchesStr (pattern cand : String) : Bool :=
  globMatch pattern.data cand.data

/-! ## Splitting on `:` (Python `str.split(':')`). -/

/-- `splitOnColon cs` splits a character list at every `':'`, keeping
empty segments, exactly as Python's `t.split(':')` does (so the empty
string yields `[[]]`). -/
def splitOnColon : List Char → List (List Char)
  | [] => [[]]
  | c :: cs =>
    if c = ':' then [] :: splitOnColon cs
    else
      match splitOnColon cs with
      | [] => [[c]]
      | g :: gs => (c :: g) :: gs

theorem splitOnColon_ne_nil (cs : List Char) : splitOnColon cs ≠ [] := by
  induction cs with
  | nil => simp [splitOnColon]
  | cons c cs ih =>
    by_cases h : c = ':'
    · simp [splitOnColon, h]
    · simp only [splitOnColon, if_neg h]
      cases hs : splitOnColon cs with
      | nil => simp
      | cons g gs => simp

/-- A candidate list equals `t :: t.tails.tail` exactly when `t` runs over
all suffixes of `s`; helper for the star-semantics characterisation. -/
theorem globMatch_star (ps : List Char) (s : List Char) :
    globMatch ('*' :: ps) s = true ↔ ∃ t, t <:+ s ∧ globMatch ps t = true := by
  have htails : (s :: s.tails.tail) = s.tails := by
    cases s with
    | nil => simp
    | cons c cs => simp [List.tails]
  simp only [globMatch, htails, List.any_eq_true]
  constructor
  · rintro ⟨t, ht, hm⟩
    exact ⟨t, (List.mem_tails t s).mp ht, hm⟩
  · rintro ⟨t, ht, hm⟩
    exact ⟨t, (List.mem_tails t s).mpr ht, hm⟩

/-- The single-star pattern matches every candidate. -/
theorem globMatch_star_nil (s : List Char) : globMatch ['*'] s = true := by
  rw [globMatch_star]
  exact ⟨[], List.nil_suffix, by simp [globMatch]⟩

/-! ## Data model: findings and filter criteria

Modelled from the spec: a Finding is identified by `report_hash` and
carries severity, checker name/message, file path, review/detection
status, tags and component membership. A FilterCriteria maps each filter
field to either "absent" (`none`, no constraint) or a list of
exact-match values / wildcard patterns (`some vs`). The filter fields are
the nine registered by `__add_filtering_arguments` in the source. -/

structure Finding where
  report_hash : String
  severity : String
  checker_name : String
  checker_message : String
  file_path : String
  review_status : String
  detection_status : String
  tags : List String
  components : List String
deriving DecidableEq

structure FilterCriteria where
  report_hash : Option (List String) := none
  review_status : Option (List String) := none
  detection_status : Option (List String) := none
  severity : Option (List String) := none
  tag : Option (List String) := none
  component : Option (List String) := none
  file_path : Option (List String) := none
  checker_name : Option (List String) := none
  checker_msg : Option (List String) := none
deriving DecidableEq

/-- Exact-match field evaluation: absent fields impose no constraint;
a present field is satisfied if ANY listed value equals the attribute. -/
def fieldExact (field : Option (List String)) (attr : String) : Bool :=
  match field with
  | none => true
  | some vs => vs.any (fun v => v == attr)

/-- Set-valued attribute evaluation (tags, components): a present field is
satisfied if ANY listed value is among the finding's attribute values. -/
def fieldMem (field : Option (List String)) (attrs : List String) : Bool :=
  match field with
  | none => true
  | some vs => vs.any (fun v => attrs.contains v)

/-- Wildcard field evaluation: a present field is satisfied if ANY listed
pattern matches the attribute. -/
def fieldPattern (field : Option (List String)) (attr : String) : Bool :=
  match field with
  | none => true
  | some ps => ps.any (fun p => matchesStr p attr)

/-- Modelled from the spec: `FilterCriteria.matches` — every present field
must be satisfied (AND across fields), each by any of its listed
values/patterns (OR within a field); absent fields contribute `true`.
The evaluation itself is implemented by the server-side collaborator,
outside the examined sources. -/
def FilterCriteria.matches (c : FilterCriteria) (f : Finding) : Bool :=
  fieldExact c.report_hash f.report_hash &&
  fieldExact c.review_status f.review_status &&
  fieldExact c.detection_status f.detection_status &&
  fieldExact c.severity f.severity &&
  fieldMem c.tag f.tags &&
  fieldMem c.component f.components &&
  fieldPattern c.file_path f.file_path &&
  fieldPattern c.checker_name f.checker_name &&
  fieldPattern c.checker_msg f.checker_message

/-- Logical reading of an exact-match field: absent, or some listed value
equals the attribute. -/
def ExactSat (field : Option (List String)) (attr : String) : Prop :=
  field = none ∨ ∃ vs, field = some vs ∧ ∃ v ∈ vs, v = attr

/-- Logical reading of a set-valued field: absent, or some listed value is
among the attribute values. -/
def MemSat (field : Option (List String)) (attrs : List String) : Prop :=
  field = none ∨ ∃ vs, field = some vs ∧ ∃ v ∈ vs, v ∈ attrs

/-- Logical reading of a wildcard field: absent, or some listed pattern
matches the attribute. -/
def PatSat (field : Option (List String)) (attr : String) : Prop :=
  field = none ∨ ∃ ps, field = some ps ∧ ∃ p ∈ ps, matchesStr p attr = true

theorem fieldExact_iff (field : Option (List String)) (attr : String) :
    fieldExact field attr = true ↔ ExactSat field attr := by
  cases field with
  | none => simp [fieldExact, ExactSat]
  | some vs => simp [fieldExact, ExactSat, List.any_eq_true]

theorem fieldMem_iff (field : Option (List String)) (attrs : List String) :
    fieldMem field attrs = true ↔ MemSat field attrs := by
  cases field with
  | none => simp [fieldMem, MemSat]
  | some vs => simp [fieldMem, MemSat, List.any_eq_true]

theorem fieldPattern_iff (field : Option (List String)) (attr : String) :
    fieldPattern field attr = true ↔ PatSat field attr := by
  cases field with
  | none => simp [fieldPattern, PatSat]
  | some ps => simp [fieldPattern, PatSat, List.any_eq_true]

/-- All nine fields of a criteria object are absent. -/
def FilterCriteria.allAbsent (c : FilterCriteria) : Prop :=
  c.report_hash = none ∧ c.review_status = none ∧ c.detection_status = none ∧
  c.severity = none ∧ c.tag = none ∧ c.component = none ∧
  c.file_path = none ∧ c.checker_name = none ∧ c.checker_msg = none

/-! ## Default filter values (from the source)

`DEFAULT_FILTER_VALUES` and `init_default` are embedded from
`__add_filtering_arguments` in `libcodechecker/libhandlers/cmd.py`:
`init_default(dest)` returns `defaults[dest]` when a defaults mapping is
given and contains `dest`, else `argparse.SUPPRESS` (modelled as `none`,
i.e. the attribute is absent). -/

def DEFAULT_FILTER_VALUES (dest : String) : Option (List String) :=
  if dest = "review_status" then some ["unreviewed", "confirmed"]
  else if dest = "detection_status" then some ["new", "reopened", "unresolved"]
  else none

def init_default (defaults : Option (String → Option (List String)))
    (dest : String) : Option (List String) :=
  match defaults with
  | some d => d dest
  | none => none

/-- argparse resolution of one `nargs='*'` filter option: a value supplied
on the command line wins; otherwise the registered default
(`init_default`) applies, `none` meaning the attribute is suppressed. -/
def resolvedFilterField (defaults : Option (String → Option (List String)))
    (supplied : Option (List String)) (dest : String) : Option (List String) :=
  match supplied with
  | some vs => some vs
  | none => init_default defaults dest

/-- The criteria constructed for a "results"/"diff" invocation that
supplies none of the filter options: only the two defaulted fields are
present. -/
def defaultResultsCriteria : FilterCriteria :=
  { review_status :=
      resolvedFilterField (some DEFAULT_FILTER_VALUES) none "review_status"
    detection_status :=
      resolvedFilterField (some DEFAULT_FILTER_VALUES) none "detection_status" }

/-! ## DiffEngine

Modelled from the spec: `diff(base, new, mode)` classifies findings by
`report_hash` presence — New = in `new` but not `base`; Resolved = in
`base` but not `new` (values taken from `base`); Unresolved = in both
(values taken from `new`). The implementation lives in
`cmd_line_client.handle_diff_results`, outside the examined sources. -/

inductive DiffMode where
  | New
  | Resolved
  | Unresolved
deriving DecidableEq

/-- The report hashes present in a finding set. -/
def hashesOf (s : List Finding) : List String :=
  s.map Finding.report_hash

def diff (base new : List Finding) : DiffMode → List Finding
  | .New => new.filter (fun f => !(hashesOf base).contains f.report_hash)
  | .Resolved => base.filter (fun f => !(hashesOf new).contains f.report_hash)
  | .Unresolved => new.filter (fun f => (hashesOf base).contains f.report_hash)

/-! ## Comparison-mode mutual exclusion

Modelled from the spec: exactly one of the `--new`/`--resolved`/
`--unresolved` flags must be chosen; zero or several is an invalid
request. The source declares this through
`add_mutually_exclusive_group(required=True)` of argparse, whose
accept/reject semantics are the library's and are modelled here. -/

def chooseDiffMode (n r u : Bool) : Option DiffMode :=
  match n, r, u with
  | true, false, false => some .New
  | false, true, false => some .Resolved
  | false, false, true => some .Unresolved
  | _, _, _ => none

/-- Number of comparison-mode flags supplied. -/
def diffModeCount (n r u : Bool) : Nat :=
  (if n then 1 else 0) + (if r then 1 else 0) + (if u then 1 else 0)

/-! ## RunSelector

Modelled from the spec: split the run-name expression on `:` into raw
patterns, compile each with the PatternMatcher, and select a known run
name iff ANY pattern matches it; order follows `known_run_names`. The
implementation lives in the `cmd_line_client` collaborator, outside the
examined sources. -/

def RunSelector.resolve (expr : String) (known : List String) : List String :=
  let pats := splitOnColon expr.data
  known.filter (fun name => pats.any (fun p => globMatch p name.data))

/-! ## Retention-time parsing (`valid_time` from the source)

`valid_time(t)` splits `t` on `:`, converts every part with Python's
`int`, pads with zeros up to six parts, unpacks into
`(year, month, day, hour, minute, second)` and constructs a
`datetime.datetime`; every `ValueError` raised on the way (a part that is
not an integer, more than six parts failing the six-way unpacking, or a
field outside `datetime`'s legal ranges) is reported as an
`ArgumentTypeError` (modelled as `none`). -/

/-- Value of a non-empty all-digit character list, `none` otherwise. -/
def digitsToNat (cs : List Char) : Option Nat :=
  match cs with
  | [] => none
  | _ =>
    cs.foldl
      (fun acc c =>
        match acc with
        | none => none
        | some n => if c.isDigit then some (n * 10 + (c.toNat - '0'.toNat)) else none)
      (some 0)

/-- Python's `int(str)`: optional surrounding whitespace, optional single
sign, then a non-empty digit run. -/
def parsePyInt (cs : List Char) : Option Int :=
  let cs := ((cs.dropWhile Char.isWhitespace).reverse.dropWhile
    Char.isWhitespace).reverse
  match cs with
  | '+' :: ds => (digitsToNat ds).map Int.ofNat
  | '-' :: ds => (digitsToNat ds).map (fun n => -(n : Int))
  | ds => (digitsToNat ds).map Int.ofNat

/-- `map(int, parts)`: first failing conversion fails the whole map, as
the raised `ValueError` would. -/
def mapIntParts : List (List Char) → Option (List Int)
  | [] => some []
  | s :: ss =>
    match parsePyInt s, mapIntParts ss with
    | some n, some ns => some (n :: ns)
    | _, _ => none

/-- `parts + [0] * (6 - len(parts))`: in Python a negative repetition
count yields the empty list, exactly as truncated `Nat` subtraction
does. -/
def padSix (parts : List Int) : List Int :=
  parts ++ List.replicate (6 - parts.length) 0

def isLeapYear (y : Int) : Bool :=
  y % 4 == 0 && (y % 100 != 0 || y % 400 == 0)

def daysInMonth (y m : Int) : Int :=
  if m = 2 then (if isLeapYear y then 29 else 28)
  else if m = 4 ∨ m = 6 ∨ m = 9 ∨ m = 11 then 30
  else 31

/-- `datetime.datetime`'s constructor validation: `MINYEAR ≤ year ≤
MAXYEAR`, month in 1..12, day in 1..days-in-month, time fields in their
clock ranges. -/
def validDateTime (y mo d h mi s : Int) : Bool :=
  1 ≤ y && y ≤ 9999 && 1 ≤ mo && mo ≤ 12 &&
  1 ≤ d && d ≤ daysInMonth y mo &&
  0 ≤ h && h ≤ 23 && 0 ≤ mi && mi ≤ 59 && 0 ≤ s && s ≤ 59

structure PyDateTime where
  year : Int
  month : Int
  day : Int
  hour : Int
  minute : Int
  second : Int
deriving DecidableEq

/-- The six-way unpacking `year, month, day, hour, minute, second = parts`
followed by `datetime.datetime(...)`: any other arity raises, as does an
out-of-range field. -/
def buildDateTime : List Int → Option PyDateTime
  | [y, mo, d, h, mi, s] =>
    if validDateTime y mo d h mi s then some ⟨y, mo, d, h, mi, s⟩ else none
  | _ => none

def valid_time (t : String) : Option PyDateTime :=
  match mapIntParts (splitOnColon t.data) with
  | none => none
  | some parts => buildDateTime (padSix parts)

/-- The logical reading of a successful `valid_time` run: the
colon-separated parts all convert to integers, padding with zeros yields
exactly six values, and those six values are legal date-time fields. -/
def SpecParses (t : String) : Prop :=
  ∃ parts y mo d h mi s,
    mapIntParts (splitOnColon t.data) = some parts ∧
    padSix parts = [y, mo, d, h, mi, s] ∧
    validDateTime y mo d h mi s = true

/-! ## `product add` PostgreSQL option validation (from the source)

Embedded from the `__handle` closure of `__register_add`: `arg_match`
collects the option strings among `options` for which some entry of
`sys.argv[1:]` is a (non-empty) prefix; if any PostgreSQL-only option was
matched and `--postgresql` was not given, the request is rejected with
`parser.error` naming the first matching option, before
`product_client.handle_add_product` is ever called. -/

/-- Python's `str.startswith`, character by character: `startsWithL s p`
is true iff `p` is an initial segment of `s`. -/
def startsWithL : List Char → List Char → Bool
  | _, [] => true
  | [], _ :: _ => false
  | c :: cs, p :: ps => c == p && startsWithL cs ps

/-- The Python list comprehension keeps `arg` (truthy iff non-empty) when
`option.startswith(arg)`; `any` of it is true iff some non-empty argv
entry starts the option string. -/
def arg_match (options argv : List String) : List String :=
  options.filter
    (fun option =>
      argv.any (fun arg => startsWithL option.data arg.data && !arg.data.isEmpty))

def psql_options : List String :=
  ["--dbaddress", "--dbport", "--dbusername", "--dbname",
   "--db-host", "--db-port", "--db-username", "--db-name"]

/-- `Except.error msg` models `parser.error(msg)` (the process exits with
code 2 before `handle_add_product`); `Except.ok ()` models reaching the
handler call. `postgresql_given` is `'postgresql' in args`, true iff the
flag was supplied (its registered default is `argparse.SUPPRESS`). -/
def product_add_handle (argv : List String) (postgresql_given : Bool) :
    Except String Unit :=
  let psql_args_matching := arg_match psql_options argv
  if psql_args_matching.any (fun s => !s.data.isEmpty) && !postgresql_given then
    Except.error ("argument " ++ psql_args_matching.headD "" ++
      ": not allowed without argument --postgresql")
  else
    Except.ok ()

/-- Modelled from the spec: the `AmbiguousFilterValueError` check — a
multi-value filter field whose value list is explicitly empty (as opposed
to absent) is a user error that must surface. -/
def hasAmbiguousEmpty (c : FilterCriteria) : Bool :=
  c.report_hash == some [] || c.review_status == some [] ||
  c.detection_status == some [] || c.severity == some [] ||
  c.tag == some [] || c.component == some [] ||
  c.file_path == some [] || c.checker_name == some [] ||
  c.checker_msg == some []

/-! ## Concrete fixtures for the scenario parts of the claims. -/

def fh1 : Finding :=
  ⟨"h1", "high", "core.A", "m1", "/a.cpp", "unreviewed", "new", [], []⟩

def fh2 : Finding :=
  ⟨"h2", "high", "core.B", "m2", "/base.cpp", "unreviewed", "new", [], []⟩

/-- Same `report_hash` as `fh2` but a different value, to observe which
side a classified finding is taken from. -/
def fh2new : Finding :=
  ⟨"h2", "high", "core.B", "m2", "/new.cpp", "unreviewed", "unresolved", [], []⟩

def fh3 : Finding :=
  ⟨"h3", "low", "core.C", "m3", "/c.cpp", "unreviewed", "new", [], []⟩

def fNew : Finding :=
  ⟨"n1", "high", "core.A", "m", "/f.cpp", "unreviewed", "new", [], []⟩

def fUnres : Finding :=
  ⟨"n2", "high", "core.A", "m", "/f.cpp", "unreviewed", "unresolved", [], []⟩

def fRes : Finding :=
  ⟨"n3", "high", "core.A", "m", "/f.cpp", "unreviewed", "resolved", [], []⟩

/-! ## Helper lemmas. -/

theorem startsWithL_self (l : List Char) : startsWithL l l = true := by
  induction l with
  | nil => rfl
  | cons c cs ih => simp [startsWithL, ih]

theorem mapIntParts_length (ss : List (List Char)) (parts : List Int)
    (h : mapIntParts ss = some parts) : parts.length = ss.length := by
  induction ss generalizing parts with
  | nil => simp [mapIntParts] at h; simp [← h]
  | cons s ss ih =>
    simp only [mapIntParts] at h
    cases hp : parsePyInt s with
    | none => rw [hp] at h; simp at h
    | some n =>
      rw [hp] at h
      cases hm : mapIntParts ss with
      | none => rw [hm] at h; simp at h
      | some ns =>
        rw [hm] at h
        simp only [Option.some.injEq] at h
        subst h
        simp [ih ns hm]

theorem buildDateTime_isSome (l : List Int) :
    (buildDateTime l).isSome = true ↔
      ∃ y mo d h mi s, l = [y, mo, d, h, mi, s] ∧
        validDateTime y mo d h mi s = true := by
  unfold buildDateTime
  split
  · rename_i y mo d h mi s
    by_cases hv : validDateTime y mo d h mi s = true
    · constructor
      · intro _
        exact ⟨y, mo, d, h, mi, s, rfl, hv⟩
      · intro _
        simp [hv]
    · constructor
      · intro hs
        simp [hv] at hs
      · rintro ⟨y', mo', d', h', mi', s', heq, hv'⟩
        simp only [List.cons.injEq, and_true] at heq
        obtain ⟨rfl, rfl, rfl, rfl, rfl, rfl⟩ := heq
        exact absurd hv' hv
  · rename_i hne
    constructor
    · intro hs
      simp at hs
    · rintro ⟨y, mo, d, h, mi, s, heq, hv⟩
      exact absurd heq (fun he => hne y mo d h mi s he)

theorem buildDateTime_of_length_ne (l : List Int) (h : l.length ≠ 6) :
    buildDateTime l = none := by
  unfold buildDateTime
  split
  · rename_i y mo d hh mi s
    simp at h
  · rfl

/-- A valid FilterCriteria whose severity list is explicitly empty. -/
def cEmptySeverity : FilterCriteria := { severity := some [] }

/-! ## Claim theorems. -/

/-- Claim C1: `diff` classifies by `report_hash` presence — New are the
findings of `new` whose hash is absent from `base`; Resolved the findings
of `base` whose hash is absent from `new` (values taken from `base`);
Unresolved the findings of `new` whose hash occurs in `base` (values
taken from `new`); and on base = {h1, h2}, new = {h2, h3} the modes yield
{h3}, {h1} and {h2} respectively, the h2 value coming from the new
side. -/
theorem C1_diff_classification :
    (∀ base new f, f ∈ diff base new DiffMode.New ↔
       f ∈ new ∧ f.report_hash ∉ hashesOf base)
    ∧ (∀ base new f, f ∈ diff base new DiffMode.Resolved ↔
       f ∈ base ∧ f.report_hash ∉ hashesOf new)
    ∧ (∀ base new f, f ∈ diff base new DiffMode.Unresolved ↔
       f ∈ new ∧ f.report_hash ∈ hashesOf base)
    ∧ diff [fh1, fh2] [fh2new, fh3] DiffMode.New = [fh3]
    ∧ diff [fh1, fh2] [fh2new, fh3] DiffMode.Resolved = [fh1]
    ∧ diff [fh1, fh2] [fh2new, fh3] DiffMode.Unresolved = [fh2new] := by
  refine ⟨?_, ?_, ?_, by decide, by decide, by decide⟩ <;>
    · intro base new f
      simp [diff, List.mem_filter, hashesOf]

/-- Claim C2: with no explicit value supplied, the "results"/"diff" filter
defaults to review_status = {unreviewed, confirmed} and detection_status
= {new, reopened, unresolved}; an explicitly passed value set always
overrides the default; and under the default criteria an unfiltered
request over findings with detection statuses {new, unresolved, resolved}
keeps exactly the {new, unresolved} subset. -/
theorem C2_default_filter_values :
    resolvedFilterField (some DEFAULT_FILTER_VALUES) none "review_status"
        = some ["unreviewed", "confirmed"]
    ∧ resolvedFilterField (some DEFAULT_FILTER_VALUES) none "detection_status"
        = some ["new", "reopened", "unresolved"]
    ∧ (∀ d vs dest, resolvedFilterField d (some vs) dest = some vs)
    ∧ (∀ f : Finding,
        f.review_status = "unreviewed" ∨ f.review_status = "confirmed" →
        (defaultResultsCriteria.matches f = true ↔
          (f.detection_status = "new" ∨ f.detection_status = "reopened" ∨
           f.detection_status = "unresolved")))
    ∧ List.filter defaultResultsCriteria.matches [fNew, fUnres, fRes]
        = [fNew, fUnres] := by
  refine ⟨rfl, rfl, fun d vs dest => rfl, ?_, by decide⟩
  intro f hrev
  have hc : defaultResultsCriteria =
      { review_status := some ["unreviewed", "confirmed"],
        detection_status := some ["new", "reopened", "unresolved"] } := rfl
  rw [hc]
  rcases hrev with h | h <;>
    simp [FilterCriteria.matches, fieldExact, fieldMem, fieldPattern, h] <;>
    exact or_congr eq_comm (or_congr eq_comm eq_comm)

/-- Witness for C2 at a concrete finding carrying the default review
status and a "new" detection status. -/
theorem C2_default_filter_values_witness :
    defaultResultsCriteria.matches fNew = true :=
  (C2_default_filter_values.2.2.2.1 fNew (Or.inl rfl)).mpr (Or.inl rfl)

/-- Claim C3: `FilterCriteria.matches` is the AND over present fields of
the OR over each field's listed values/patterns; an absent field
contributes true, so the all-absent criteria matches every finding. -/
theorem C3_filter_criteria_semantics :
    (∀ (c : FilterCriteria) (f : Finding),
       c.matches f = true ↔
         ExactSat c.report_hash f.report_hash ∧
         ExactSat c.review_status f.review_status ∧
         ExactSat c.detection_status f.detection_status ∧
         ExactSat c.severity f.severity ∧
         MemSat c.tag f.tags ∧
         MemSat c.component f.components ∧
         PatSat c.file_path f.file_path ∧
         PatSat c.checker_name f.checker_name ∧
         PatSat c.checker_msg f.checker_message)
    ∧ (∀ (c : FilterCriteria) (f : Finding), c.allAbsent → c.matches f = true) := by
  constructor
  · intro c f
    simp only [FilterCriteria.matches, Bool.and_eq_true, fieldExact_iff,
      fieldMem_iff, fieldPattern_iff, and_assoc]
  · rintro c f ⟨h1, h2, h3, h4, h5, h6, h7, h8, h9⟩
    simp [FilterCriteria.matches, h1, h2, h3, h4, h5, h6, h7, h8, h9,
      fieldExact, fieldMem, fieldPattern]

/-- Witness for C3 at the all-absent criteria and a concrete finding. -/
theorem C3_filter_criteria_semantics_witness :
    FilterCriteria.matches {} fh1 = true :=
  C3_filter_criteria_semantics.2 {} fh1
    ⟨rfl, rfl, rfl, rfl, rfl, rfl, rfl, rfl, rfl⟩

/-- Claim C4: the compiled matcher is anchored and case-sensitive, `*`
matches zero or more arbitrary characters (the star clause holds iff some
suffix of the candidate matches the rest of the pattern), other
characters match literally, `"*"` matches every candidate,
`"core.*"` matches `"core.DeadStores"` and not `"cwe.core"`. -/
theorem C4_pattern_matcher :
    (∀ x : String, matchesStr "*" x = true)
    ∧ (∀ ps s, globMatch ('*' :: ps) s = true ↔
        ∃ t, t <:+ s ∧ globMatch ps t = true)
    ∧ (∀ p ps c cs, p ≠ '*' →
        (globMatch (p :: ps) (c :: cs) = true ↔ p = c ∧ globMatch ps cs = true))
    ∧ matchesStr "core.*" "core.DeadStores" = true
    ∧ matchesStr "core.*" "cwe.core" = false
    ∧ matchesStr "b" "abc" = false
    ∧ matchesStr "a" "A" = false := by
  refine ⟨?_, globMatch_star, ?_, by decide, by decide, by decide, by decide⟩
  · intro x
    have h : ("*" : String).data = ['*'] := rfl
    rw [matchesStr, h]
    exact globMatch_star_nil x.data
  · intro p ps c cs hp
    rw [globMatch.eq_def]
    split <;> simp_all

/-- Witness for C4's literal clause at concrete characters. -/
theorem C4_pattern_matcher_witness :
    globMatch ['a'] ['a'] = true ↔ 'a' = 'a' ∧ globMatch [] [] = true :=
  C4_pattern_matcher.2.2.1 'a' [] 'a' [] (by decide)

/-- Claim C5: `RunSelector.resolve` splits the expression on `:` into
patterns and keeps a known run name iff ANY pattern matches it; on known
names {run_1_a, run_2_b, run_2_c, run_3_d} the expression
"run_2*:run_3_d" resolves to {run_2_b, run_2_c, run_3_d}. -/
theorem C5_run_selector :
    (∀ expr known name, name ∈ RunSelector.resolve expr known ↔
       name ∈ known ∧
         ∃ p ∈ splitOnColon expr.data, globMatch p name.data = true)
    ∧ RunSelector.resolve "run_2*:run_3_d"
        ["run_1_a", "run_2_b", "run_2_c", "run_3_d"]
        = ["run_2_b", "run_2_c", "run_3_d"] := by
  refine ⟨?_, by decide⟩
  intro expr known name
  simp [RunSelector.resolve, List.mem_filter, List.any_eq_true]

/-- Claim C6: a diff request is accepted iff exactly one comparison-mode
flag is supplied; zero or several flags are rejected, so no accepted
request carries two modes. -/
theorem C6_diff_mode_exactly_one :
    (∀ n r u, (chooseDiffMode n r u).isSome = true ↔ diffModeCount n r u = 1)
    ∧ (∀ n r u, diffModeCount n r u ≠ 1 → chooseDiffMode n r u = none)
    ∧ (∀ n r u, (chooseDiffMode n r u).isSome = true →
        ¬(n = true ∧ r = true) ∧ ¬(n = true ∧ u = true) ∧
        ¬(r = true ∧ u = true)) := by
  exact ⟨by decide, by decide, by decide⟩

/-- Witness for C6: two modes are rejected; one accepted mode excludes the
others. -/
theorem C6_diff_mode_exactly_one_witness :
    chooseDiffMode true true false = none ∧
    (¬(true = true ∧ false = true) ∧ ¬(true = true ∧ false = true) ∧
     ¬(false = true ∧ false = true)) :=
  ⟨C6_diff_mode_exactly_one.2.1 true true false (by decide),
   C6_diff_mode_exactly_one.2.2 true false false (by decide)⟩

/-- Claim C7: a date-only timestamp parses with the time-of-day defaulted
to midnight, and `valid_time` succeeds exactly when the string parses
into six legal (year, month, day, hour, minute, second) fields. -/
theorem C7_valid_time_midnight_default :
    (∀ t y mo d, mapIntParts (splitOnColon t.data) = some [y, mo, d] →
       validDateTime y mo d 0 0 0 = true →
       valid_time t = some ⟨y, mo, d, 0, 0, 0⟩)
    ∧ (∀ t, (valid_time t).isSome = true ↔ SpecParses t) := by
  constructor
  · intro t y mo d hm hv
    simp [valid_time, hm, padSix, buildDateTime, hv, List.replicate]
  · intro t
    unfold valid_time
    cases hm : mapIntParts (splitOnColon t.data) with
    | none => simp [SpecParses, hm]
    | some parts =>
      rw [buildDateTime_isSome]
      simp only [SpecParses, hm, Option.some.injEq]
      constructor
      · rintro ⟨y, mo, d, h, mi, s, heq, hv⟩
        exact ⟨parts, y, mo, d, h, mi, s, rfl, heq, hv⟩
      · rintro ⟨parts', y, mo, d, h, mi, s, hp, heq, hv⟩
        obtain rfl : parts = parts' := hp
        exact ⟨y, mo, d, h, mi, s, heq, hv⟩

/-- Witness for C7 at the date-only timestamp "2019:3:5". -/
theorem C7_valid_time_midnight_default_witness :
    valid_time "2019:3:5" = some ⟨2019, 3, 5, 0, 0, 0⟩ :=
  C7_valid_time_midnight_default.1 "2019:3:5" 2019 3 5 (by decide) (by decide)

/-- Claim C8: an explicitly empty value list in any of the nine filter
fields is flagged as ambiguous (it is distinct from an absent field), a
criteria with any present-but-empty field matches no finding, and an
absent field imposes no constraint. -/
theorem C8_empty_filter_value :
    (∀ c : FilterCriteria, hasAmbiguousEmpty c = true ↔
       (c.report_hash = some [] ∨ c.review_status = some [] ∨
        c.detection_status = some [] ∨ c.severity = some [] ∨
        c.tag = some [] ∨ c.component = some [] ∨
        c.file_path = some [] ∨ c.checker_name = some [] ∨
        c.checker_msg = some []))
    ∧ (∀ (c : FilterCriteria) (f : Finding), hasAmbiguousEmpty c = true →
        c.matches f = false)
    ∧ (∀ attr, fieldExact none attr = true)
    ∧ (∀ attrs, fieldMem none attrs = true)
    ∧ (∀ attr, fieldPattern none attr = true) := by
  have hiff : ∀ c : FilterCriteria, hasAmbiguousEmpty c = true ↔
      (c.report_hash = some [] ∨ c.review_status = some [] ∨
       c.detection_status = some [] ∨ c.severity = some [] ∨
       c.tag = some [] ∨ c.component = some [] ∨
       c.file_path = some [] ∨ c.checker_name = some [] ∨
       c.checker_msg = some []) := by
    intro c
    simp [hasAmbiguousEmpty, or_assoc]
  refine ⟨hiff, ?_, fun attr => rfl, fun attrs => rfl, fun attr => rfl⟩
  intro c f h
  rcases (hiff c).mp h with h | h | h | h | h | h | h | h | h <;>
    simp [FilterCriteria.matches, h, fieldExact, fieldMem, fieldPattern]

/-- Witness for C8 at a criteria whose severity list is explicitly
empty. -/
theorem C8_empty_filter_value_witness :
    FilterCriteria.matches cEmptySeverity fh1 = false :=
  C8_empty_filter_value.2.1 cEmptySeverity fh1 (by decide)

/-- Claim C9: a PostgreSQL-only option given on the command line without
the `--postgresql` flag makes `product add` fail with an error naming the
first matched option, before the add-product handler runs; with the flag
the validation passes. -/
theorem C9_psql_option_requires_flag :
    (∀ argv opt, opt ∈ psql_options → opt ∈ argv →
       ∃ first rest, arg_match psql_options argv = first :: rest ∧
         product_add_handle argv false =
           Except.error ("argument " ++ first ++
             ": not allowed without argument --postgresql"))
    ∧ (∀ argv, product_add_handle argv true = Except.ok ()) := by
  constructor
  · intro argv opt h1 h2
    have hne : opt.data.isEmpty = false := by
      fin_cases h1 <;> decide
    have hpred : (argv.any fun arg =>
        startsWithL opt.data arg.data && !arg.data.isEmpty) = true := by
      refine List.any_eq_true.mpr ⟨opt, h2, ?_⟩
      simp [startsWithL_self, hne]
    have hmem : opt ∈ arg_match psql_options argv :=
      List.mem_filter.mpr ⟨h1, hpred⟩
    cases hmatch : arg_match psql_options argv with
    | nil =>
      rw [hmatch] at hmem
      simp at hmem
    | cons first rest =>
      refine ⟨first, rest, rfl, ?_⟩
      have hfmem : first ∈ arg_match psql_options argv := by
        rw [hmatch]
        exact List.mem_cons_self _ _
      have hfirst : first ∈ psql_options := (List.mem_filter.mp hfmem).1
      have hfe : first.data.isEmpty = false := by
        fin_cases hfirst <;> decide
      simp [product_add_handle, hmatch, hfe]
  · intro argv
    simp [product_add_handle]

/-- Witness for C9 at the invocation `product add --dbport` without
`--postgresql`. -/
theorem C9_psql_option_requires_flag_witness :
    ∃ first rest, arg_match psql_options ["--dbport"] = first :: rest ∧
      product_add_handle ["--dbport"] false =
        Except.error ("argument " ++ first ++
          ": not allowed without argument --postgresql") :=
  C9_psql_option_requires_flag.1 ["--dbport"] "--dbport"
    (by decide) (by decide)

/-- Claim C10: a timestamp with more than six colon-separated fields fails
the six-way unpacking and is rejected — padding never truncates. -/
theorem C10_seven_fields_rejected (t : String)
    (h : 6 < (splitOnColon t.data).length) : valid_time t = none := by
  unfold valid_time
  cases hm : mapIntParts (splitOnColon t.data) with
  | none => rfl
  | some parts =>
    show buildDateTime (padSix parts) = none
    have hlen : parts.length = (splitOnColon t.data).length :=
      mapIntParts_length _ _ hm
    have hpad : padSix parts = parts := by
      unfold padSix
      have h0 : 6 - parts.length = 0 := by omega
      simp [h0]
    rw [hpad]
    exact buildDateTime_of_length_ne parts (by omega)

/-- Witness for C10 at the seven-field timestamp "1:2:3:4:5:6:7". -/
theorem C10_seven_fields_rejected_witness :
    valid_time "1:2:3:4:5:6:7" = none :=
  C10_seven_fields_rejected "1:2:3:4:5:6:7" (by decide)

end CodeChecker
